import Mathlib

/-!
Verification of the KDP analytics extraction/merge/reconciliation pipeline.

Shallow embedding of the JavaScript sources:
  * `src/kdp-extension/content.js`   (namespace `CJS`)
  * `src/unnamed/part_000`           (namespace `P0`, the "Pro" content script)
  * `src/unnamed/part_001`           (namespace `P1`, the background script)
  * `src/dashboard_server.js`        (namespace `DS`)

Modelling conventions, used uniformly below:
  * JavaScript strings are `List Char` (abbreviated `Str`); only ASCII inputs
    are modelled, so `toLowerCase`/`toUpperCase`/character classes use their
    ASCII meaning.
  * JavaScript numbers are `ℚ` (the programs only add, take max, multiply by
    0.004 and divide by a list length, all exact on the rationals).
  * A JavaScript field that is `undefined` is modelled as `0` (numbers) or
    `""` (strings) wherever the source only ever reads the field through a
    falsy-guard such as `x || 0`, `x || ''` — those guards send `undefined`
    and the modelled default to the same value.  Where presence of a field is
    itself significant (the object-spread merge of the background script), the
    field is modelled as an `Option`.
  * `new Date().toISOString()` (wall-clock) and the random id source of
    `enhanceBookData` are modelled as explicit string parameters (`now`,
    `rng`).
  * A JavaScript exception is modelled with `Except String`; a computation
    that can exhaust the call stack is modelled with explicit fuel, `none`
    meaning "did not complete within any budget of `fuel` nested calls".
-/

/-- JavaScript string, modelled as a list of (ASCII) characters. -/
abbrev Str := List Char

/-- ASCII `toLowerCase` on one character, as JavaScript applies it. -/
def jsLowerChar (c : Char) : Char :=
  if 65 ≤ c.toNat ∧ c.toNat ≤ 90 then Char.ofNat (c.toNat + 32) else c

/-- ASCII `toUpperCase` on one character. -/
def jsUpperChar (c : Char) : Char :=
  if 97 ≤ c.toNat ∧ c.toNat ≤ 122 then Char.ofNat (c.toNat - 32) else c

/-- `s.toLowerCase()` (ASCII). -/
def jsLower (s : Str) : Str := s.map jsLowerChar

/-- `s.toUpperCase()` (ASCII). -/
def jsUpper (s : Str) : Str := s.map jsUpperChar

/-- The whitespace class `\s` of JavaScript regexes, restricted to ASCII:
space, tab, line feed, vertical tab, form feed, carriage return. -/
def isJsSpace (c : Char) : Bool :=
  c = ' ' || c = Char.ofNat 9 || c = Char.ofNat 10 || c = Char.ofNat 11 ||
  c = Char.ofNat 12 || c = Char.ofNat 13

/-- `s.trim()`: strip leading and trailing whitespace. -/
def jsTrim (s : Str) : Str :=
  ((s.dropWhile isJsSpace).reverse.dropWhile isJsSpace).reverse

/-- Does `hay` start with `pre`? -/
def startsWithL : Str → Str → Bool
  | [], _ => true
  | _ :: _, [] => false
  | p :: ps, c :: cs => p = c && startsWithL ps cs

/-- `hay.includes(needle)`: substring containment, as JavaScript
`String.prototype.includes`. -/
def containsSub (needle : Str) : Str → Bool
  | [] => startsWithL needle []
  | c :: cs => startsWithL needle (c :: cs) || containsSub needle cs

/-- Numeric value of a string of decimal digits (used for `parseInt` on
strings already known to match `^\d+$`). -/
def natOfDigits (s : Str) : Nat :=
  s.foldl (fun n c => 10 * n + (c.toNat - 48)) 0

/-- JavaScript `a || b` on numbers (for number-valued operands `||` keeps `a`
unless `a` is falsy, i.e. `0`; an `undefined` operand is modelled as `0`). -/
def jsOr (a b : ℚ) : ℚ := if a = 0 then b else a

/-- `Math.max(a, b)` (defined with an explicit `if` so that concrete
instances evaluate inside the kernel; `jsMax_eq_max` identifies it with the
lattice `max` of `ℚ`). -/
def jsMax (a b : ℚ) : ℚ := if a ≤ b then b else a

theorem jsMax_eq_max (a b : ℚ) : jsMax a b = max a b := by
  simp only [jsMax, max_def]

/-!
The arithmetic of `ℚ` (`Rat.add`, `Rat.mul`, ...) is `@[irreducible]`, so we
give the four operations the sources use as kernel-reducible definitions via
`mkRat`, each proved equal to the corresponding field operation of `ℚ`.
Concrete runs of the embedded programs can then be settled by `decide`.
-/

/-- Reducible multiplication on `ℚ`. -/
def qMul (a b : ℚ) : ℚ := mkRat (a.num * b.num) (a.den * b.den)

/-- Reducible addition on `ℚ`. -/
def qAdd (a b : ℚ) : ℚ := mkRat (a.num * b.den + b.num * a.den) (a.den * b.den)

/-- Reducible subtraction on `ℚ`. -/
def qSub (a b : ℚ) : ℚ := mkRat (a.num * b.den - b.num * a.den) (a.den * b.den)

/-- Reducible division of a rational by a natural number. -/
def qDivNat (a : ℚ) (n : Nat) : ℚ := mkRat a.num (a.den * n)

theorem qMul_eq (a b : ℚ) : qMul a b = a * b := by
  rw [qMul, Rat.mkRat_eq_div]
  push_cast
  rw [← div_mul_div_comm, Rat.num_div_den, Rat.num_div_den]

theorem qAdd_eq (a b : ℚ) : qAdd a b = a + b := by
  have ha : ((a.den : ℚ)) ≠ 0 := by exact_mod_cast a.den_nz
  have hb : ((b.den : ℚ)) ≠ 0 := by exact_mod_cast b.den_nz
  rw [qAdd, Rat.mkRat_eq_div]
  push_cast
  conv_rhs => rw [← Rat.num_div_den a, ← Rat.num_div_den b]
  field_simp

theorem qSub_eq (a b : ℚ) : qSub a b = a - b := by
  have ha : ((a.den : ℚ)) ≠ 0 := by exact_mod_cast a.den_nz
  have hb : ((b.den : ℚ)) ≠ 0 := by exact_mod_cast b.den_nz
  rw [qSub, Rat.mkRat_eq_div]
  push_cast
  conv_rhs => rw [← Rat.num_div_den a, ← Rat.num_div_den b]
  field_simp
  ring

theorem qDivNat_eq (a : ℚ) (n : Nat) : qDivNat a n = a / (n : ℚ) := by
  rw [qDivNat, Rat.mkRat_eq_div]
  push_cast
  conv_rhs => rw [← Rat.num_div_den a]
  rw [div_div]

/-- The fixed per-read royalty rate, the literal `0.004` of the sources
(`kenpRate_eq` checks it against the scientific literal). -/
def kenpRate : ℚ := mkRat 4 1000

theorem kenpRate_eq : kenpRate = (0.004 : ℚ) := by norm_num [kenpRate]

/-- JavaScript `a || b` on strings (`""` is the only falsy string; an
`undefined` operand is modelled as `""`). -/
def jsOrS (a b : Str) : Str := if a = [] then b else a

/-- First value of an association list at a key (`Map.prototype.get`, with
`none` for a missing key). -/
def mGet {κ α : Type} [DecidableEq κ] (m : List (κ × α)) (k : κ) : Option α :=
  match m with
  | [] => none
  | (k0, v) :: rest => if k0 = k then some v else mGet rest k

/-- `Map.prototype.set`: replace the value at an existing key in place,
otherwise append the new entry at the end (JavaScript `Map` preserves
insertion order). -/
def mapSet {κ α : Type} [DecidableEq κ] (m : List (κ × α)) (k : κ) (v : α) :
    List (κ × α) :=
  match m with
  | [] => [(k, v)]
  | (k0, v0) :: rest =>
    if k0 = k then (k, v) :: rest else (k0, v0) :: mapSet rest k v

namespace CJS

/-- A book record as built by `content.js` (candidate and canonical records
share this shape; numeric fields absent on a candidate are modelled as `0`,
string fields absent as `""`). -/
structure Book where
  title : Str := []
  totalRoyalties : ℚ := 0
  totalSales : ℚ := 0
  kenpReads : ℚ := 0
  kenpRoyalties : ℚ := 0
  asin : Str := []
  marketplace : Str := []
  country : Str := []
  source : Str := []
  extractedAt : Str := []
  deriving DecidableEq, Repr

/-- `content.js` `isLikelyBookTitle` (lines 454-479): length in [3,200],
no UI-vocabulary keyword as a substring of the lower-cased text, alphabetic
content, not all-uppercase unless shorter than 20, not only digits, not only
symbols, and only characters from `[a-zA-Z0-9\s\-:.,'"!?&()]`. -/
def uiKeywords : List Str :=
  ["dashboard", "report", "total", "summary", "date", "filter", "export",
   "download", "view", "details", "more", "less", "expand", "collapse",
   "royalties", "earnings", "sales", "kindle", "direct", "publishing",
   "amazon", "select", "unlimited", "kenp", "asin", "marketplace", "currency",
   "period", "range", "month", "year", "today", "yesterday", "week",
   "quarter", "loading", "please wait", "no data", "error"].map String.data

/-- The punctuation set of the `hasValidChars` regex of `content.js`. -/
def validPunct : List Char :=
  ['-', ':', '.', ',', Char.ofNat 39, Char.ofNat 34, '!', '?', '&', '(', ')']

/-- One character of the `^[a-zA-Z0-9\s\-:.,'"!?&()]+$` class. -/
def isValidTitleChar (c : Char) : Bool :=
  c.isAlpha || c.isDigit || isJsSpace c || validPunct.contains c

/-- `content.js` `isLikelyBookTitle` (lines 454-479). -/
def isLikelyBookTitle (text : Str) : Bool :=
  if text = [] || text.length < 3 || text.length > 200 then false
  else
    let lowerText := jsLower text
    if uiKeywords.any (fun keyword => containsSub keyword lowerText) then false
    else
      let hasLetters := text.any Char.isAlpha
      let notAllCaps := !(text = jsUpper text) || text.length < 20
      let notOnlyNumbers := !(decide (text ≠ []) && text.all Char.isDigit)
      let notOnlySymbols :=
        !(decide (text ≠ []) &&
          text.all (fun c => !(c.isAlpha || c.isDigit || isJsSpace c)))
      let hasValidChars := decide (text ≠ []) && text.all isValidTitleChar
      hasLetters && notAllCaps && notOnlyNumbers && notOnlySymbols &&
        hasValidChars

/-- `content.js` `extractCountryFromMarketplace` (lines 491-503): first
marketplace domain suffix contained in the text wins, default `"US"`. -/
def countryMap : List (Str × Str) :=
  [(".com", "US"), (".co.uk", "UK"), (".de", "DE"), (".fr", "FR"),
   (".it", "IT"), (".es", "ES"), (".co.jp", "JP"), (".ca", "CA"),
   (".com.au", "AU"), (".com.br", "BR"), (".in", "IN"), (".com.mx", "MX")
  ].map (fun e => (e.1.data, e.2.data))

/-- `content.js` `extractCountryFromMarketplace`. -/
def extractCountryFromMarketplace (marketplace : Str) : Str :=
  match countryMap.find? (fun e => containsSub e.1 marketplace) with
  | some e => e.2
  | none => "US".data

/-- Dedup key of `content.js` `processAndDeduplicateBooks` (line 581):
always the lower-cased trimmed title — the ASIN is never consulted. -/
def dedupKey (b : Book) : Str := jsTrim (jsLower b.title)

/-- The merge branch of `content.js` `processAndDeduplicateBooks`
(lines 583-595): numeric fields take the max, string fields take the first
non-empty value preferring the existing canonical record; the object spread
`...existing` keeps the existing title, source and extraction timestamp. -/
def mergeInto (existing book : Book) : Book :=
  { existing with
    totalRoyalties := jsMax (jsOr existing.totalRoyalties 0) (jsOr book.totalRoyalties 0)
    totalSales := jsMax (jsOr existing.totalSales 0) (jsOr book.totalSales 0)
    kenpReads := jsMax (jsOr existing.kenpReads 0) (jsOr book.kenpReads 0)
    kenpRoyalties := jsMax (jsOr existing.kenpRoyalties 0) (jsOr book.kenpRoyalties 0)
    asin := jsOrS (jsOrS existing.asin book.asin) []
    marketplace := jsOrS (jsOrS existing.marketplace book.marketplace) "amazon.com".data
    country := jsOrS (jsOrS existing.country book.country) "US".data }

/-- The insert branch of `content.js` `processAndDeduplicateBooks`
(lines 597-609); `now` stands for `new Date().toISOString()`.  Note the
read-derived royalty fallback `book.kenpRoyalties || (book.kenpReads * 0.004)
|| 0` happens only here, on first insertion. -/
def freshRecord (now : Str) (book : Book) : Book :=
  { title := book.title
    totalRoyalties := jsOr book.totalRoyalties 0
    totalSales := jsOr book.totalSales 0
    kenpReads := jsOr book.kenpReads 0
    kenpRoyalties := jsOr book.kenpRoyalties (jsOr (qMul book.kenpReads kenpRate) 0)
    asin := jsOrS book.asin []
    marketplace := jsOrS book.marketplace "amazon.com".data
    country := jsOrS book.country "US".data
    source := jsOrS book.source "unknown".data
    extractedAt := jsOrS book.extractedAt now }

/-- One iteration of the `books.forEach` loop of `processAndDeduplicateBooks`
(lines 578-611) on the accumulating `bookMap`. -/
def dedupStep (now : Str) (m : List (Str × Book)) (book : Book) :
    List (Str × Book) :=
  if book.title = [] then m
  else
    let key := dedupKey book
    match mGet m key with
    | some existing => mapSet m key (mergeInto existing book)
    | none => m ++ [(key, freshRecord now book)]

/-- The `bookMap` built by `content.js` `processAndDeduplicateBooks`. -/
def buildBookMap (now : Str) (books : List Book) : List (Str × Book) :=
  books.foldl (dedupStep now) []

/-- The final filter of `processAndDeduplicateBooks` (lines 613-616). -/
def keepBook (b : Book) : Bool :=
  decide (b.title.length > 2) &&
    (decide (b.totalRoyalties > 0) || decide (b.totalSales > 0) ||
     decide (b.kenpReads > 0))

/-- `content.js` `processAndDeduplicateBooks` (lines 575-617). -/
def processAndDeduplicateBooks (now : Str) (books : List Book) : List Book :=
  ((buildBookMap now books).map Prod.snd).filter keepBook

end CJS

namespace P0

/-- A book record of the "Pro" content script (`src/unnamed/part_000`).
`id` is the fallback identifier that `enhanceBookData` may add; other
conventions are as in `CJS.Book`.  (The per-format sales fields initialised
by `extractBookFromTableRow` are never read by the functions embedded here
and are omitted.) -/
structure Book where
  title : Str := []
  asin : Str := []
  id : Str := []
  totalRoyalties : ℚ := 0
  totalSales : ℚ := 0
  kenpReads : ℚ := 0
  kenpRoyalties : ℚ := 0
  country : Str := []
  currency : Str := []
  source : Str := []
  extractedAt : Str := []
  lastUpdated : Str := []
  deriving DecidableEq, Repr

/-- `part_000` `isLikelyBookTitle` (lines 547-566): length in [3,300], the
UI-keyword blocklist is matched by case-insensitive EXACT equality only,
there is no all-uppercase filter, and the character filters are as in
`content.js`. -/
def uiKeywords : List Str :=
  ["dashboard", "report", "total", "summary", "date", "filter", "export",
   "view", "details", "royalties", "earnings", "sales", "kindle", "asin"
  ].map String.data

/-- `part_000` `isLikelyBookTitle` (lines 547-566). -/
def isLikelyBookTitle (text : Str) : Bool :=
  if text = [] || text.length < 3 || text.length > 300 then false
  else
    let lowerText := jsLower text
    if uiKeywords.any (fun keyword => lowerText = keyword) then false
    else
      let hasLetters := text.any Char.isAlpha
      let notOnlyNumbers := !(decide (text ≠ []) && text.all Char.isDigit)
      let hasValidChars :=
        decide (text ≠ []) && text.all CJS.isValidTitleChar
      hasLetters && notOnlyNumbers && hasValidChars

/-- `part_000` `isValidBookData` (lines 607-612). -/
def isValidBookData (book : Book) : Bool :=
  decide (book.title ≠ []) && decide (book.title.length > 2) &&
    (decide (book.totalRoyalties > 0) || decide (book.totalSales > 0) ||
     decide (book.kenpReads > 0))

/-- `part_000` `enhanceBookData` (lines 614-633).  The generated unique id
(`crypto.getRandomValues` hex, or `'book_' + Date.now() + '_' +
Math.random().toString(36)...`) is modelled by the explicit parameter `rng`:
the value the random/time source produces for this call. -/
def enhanceBookData (rng : Str) (book : Book) : Book :=
  let b1 :=
    if book.kenpReads > 0 ∧ book.kenpRoyalties = 0 then
      { book with kenpRoyalties := qMul book.kenpReads kenpRate }
    else book
  let b2 := if b1.country = [] then { b1 with country := "US".data } else b1
  if b2.id = [] ∧ b2.asin = [] then { b2 with id := rng } else b2

/-- `part_000` `mergeBookData` (lines 655-666): max on the four numeric
fields, first-non-empty preferring the existing record for `asin` and
`country`, everything else kept from the existing record by the spread
`...existing`; `lastUpdated` is stamped with the merge time `now`. -/
def mergeBookData (now : Str) (existing newBook : Book) : Book :=
  { existing with
    totalRoyalties := jsMax (jsOr existing.totalRoyalties 0) (jsOr newBook.totalRoyalties 0)
    totalSales := jsMax (jsOr existing.totalSales 0) (jsOr newBook.totalSales 0)
    kenpReads := jsMax (jsOr existing.kenpReads 0) (jsOr newBook.kenpReads 0)
    kenpRoyalties := jsMax (jsOr existing.kenpRoyalties 0) (jsOr newBook.kenpRoyalties 0)
    asin := jsOrS existing.asin newBook.asin
    country := jsOrS existing.country newBook.country
    lastUpdated := now }

/-- Dedup key of `part_000` `processAndDeduplicateBooks` (line 641):
`book.asin || book.title.toLowerCase().trim()`. -/
def dedupKey (b : Book) : Str := jsOrS b.asin (jsTrim (jsLower b.title))

/-- One iteration of the `books.forEach` loop of `part_000`
`processAndDeduplicateBooks` (lines 638-650).  The state carries the
`bookMap` and a counter selecting the next value of the random id source
`rng` (each insertion draws a fresh random value). -/
def dedupStep (rng : Nat → Str) (now : Str) (s : List (Str × Book) × Nat)
    (book : Book) : List (Str × Book) × Nat :=
  if ¬ isValidBookData book then s
  else
    let key := dedupKey book
    match mGet s.1 key with
    | some existing => (mapSet s.1 key (mergeBookData now existing book), s.2)
    | none => (s.1 ++ [(key, enhanceBookData (rng s.2) book)], s.2 + 1)

/-- The `bookMap` built by `part_000` `processAndDeduplicateBooks`. -/
def buildBookMap (rng : Nat → Str) (now : Str) (books : List Book) :
    List (Str × Book) :=
  (books.foldl (dedupStep rng now) ([], 0)).1

/-- `part_000` `processAndDeduplicateBooks` (lines 635-653). -/
def processAndDeduplicateBooks (rng : Nat → Str) (now : Str)
    (books : List Book) : List Book :=
  (buildBookMap rng now books).map Prod.snd

end P0

namespace P1

/-- A stored book record as the background script (`src/unnamed/part_001`)
sees it.  Every field is an `Option`: the object-spread merge `{...existing,
...book}` of `mergeBookData` distinguishes a property that is absent from
one that holds a falsy value, so presence must be modelled explicitly
(`none` = the JavaScript object has no such property). -/
structure Book where
  title : Option Str := none
  asin : Option Str := none
  id : Option Str := none
  totalRoyalties : Option ℚ := none
  totalSales : Option ℚ := none
  kenpReads : Option ℚ := none
  kenpRoyalties : Option ℚ := none
  marketplace : Option Str := none
  country : Option Str := none
  source : Option Str := none
  extractedAt : Option Str := none
  lastUpdated : Option Str := none
  deriving DecidableEq, Repr

/-- JavaScript string truthiness on an optional field: `undefined` and `""`
are falsy. -/
def strTruthy (o : Option Str) : Option Str :=
  match o with
  | none => none
  | some s => if s = [] then none else some s

/-- JavaScript `o || d` on an optional numeric field. -/
def jsOrOpt (o : Option ℚ) (d : ℚ) : ℚ :=
  match o with
  | none => d
  | some q => if q = 0 then d else q

/-- The dedup key of `part_001` `mergeBookData` (lines 680, 688):
`book.asin || book.id || book.title?.toLowerCase()`, with the surrounding
`if (key)` truthiness check folded in (`none` = the entry is skipped). -/
def p1Key (b : Book) : Option Str :=
  strTruthy (strTruthy b.asin <|> strTruthy b.id <|> (b.title.map jsLower))

/-- The merge expression of `part_001` `mergeBookData` (lines 693-700):
`{...existing, ...book, totalRoyalties: max..., totalSales: max...,
kenpReads: max..., lastUpdated: now}` — every property present on the
incoming `book` overwrites the existing one, except the three explicitly
maxed numeric fields and the timestamp. -/
def spreadMerge (now : Str) (existing book : Book) : Book :=
  { title := book.title <|> existing.title
    asin := book.asin <|> existing.asin
    id := book.id <|> existing.id
    totalRoyalties :=
      some (jsMax (jsOrOpt existing.totalRoyalties 0) (jsOrOpt book.totalRoyalties 0))
    totalSales :=
      some (jsMax (jsOrOpt existing.totalSales 0) (jsOrOpt book.totalSales 0))
    kenpReads :=
      some (jsMax (jsOrOpt existing.kenpReads 0) (jsOrOpt book.kenpReads 0))
    kenpRoyalties := book.kenpRoyalties <|> existing.kenpRoyalties
    marketplace := book.marketplace <|> existing.marketplace
    country := book.country <|> existing.country
    source := book.source <|> existing.source
    extractedAt := book.extractedAt <|> existing.extractedAt
    lastUpdated := some now }

/-- `part_001` `mergeBookData` (lines 675-711): seed the map with the
existing books, then fold the new books in, spread-merging on key collision;
`now` stands for `new Date().toISOString()`. -/
def mergeBookData (now : Str) (existing newBooks : List Book) : List Book :=
  let seeded := existing.foldl
    (fun m book =>
      match p1Key book with
      | none => m
      | some key => mapSet m key book) []
  let merged := newBooks.foldl
    (fun m book =>
      match p1Key book with
      | none => m
      | some key =>
        match mGet m key with
        | some ex => mapSet m key (spreadMerge now ex book)
        | none => mapSet m key { book with lastUpdated := some now }) seeded
  merged.map Prod.snd

end P1

namespace DS

/-- One flattened sales row of the dashboard server (an element of
`sync.data.salesData`); absent numeric fields are modelled as `0`, absent
strings as `""`. -/
structure KdpSale where
  date : Str := []
  title : Str := []
  asin : Str := []
  marketplace : Str := []
  unitsSold : ℚ := 0
  royalty : ℚ := 0
  kenpReads : ℚ := 0
  deriving DecidableEq, Repr

/-- One advertising campaign row (an element of `sync.data.campaigns`). -/
structure AdCampaign where
  campaignName : Str := []
  spend : ℚ := 0
  sales : ℚ := 0
  acos : ℚ := 0
  deriving DecidableEq, Repr

/-- One KDP sync entry (`dashboard_server.js` `/api/sync`): `data` may be
absent, and `data.salesData` may be absent. -/
structure KdpSync where
  id : Str := []
  timestamp : Str := []
  salesData : Option (List KdpSale) := none
  deriving DecidableEq, Repr

/-- One advertising sync entry. -/
structure AdSync where
  id : Str := []
  timestamp : Str := []
  campaigns : Option (List AdCampaign) := none
  deriving DecidableEq, Repr

/-- A sales row tagged with its sync (`{...sale, syncTimestamp, syncId}`,
`processUserData` lines 324-334). -/
structure KdpEntry extends KdpSale where
  syncTimestamp : Str := []
  syncId : Str := []
  deriving DecidableEq, Repr

/-- A campaign row tagged with its sync (lines 337-347). -/
structure AdEntry extends AdCampaign where
  syncTimestamp : Str := []
  syncId : Str := []
  deriving DecidableEq, Repr

/-- One combined profitability record (lines 363-377). -/
structure CombinedRecord where
  date : Str
  title : Str
  asin : Str
  marketplace : Str
  unitsSold : ℚ
  royalty : ℚ
  kenpRead : ℚ
  adSpend : ℚ
  adSales : ℚ
  acos : ℚ
  netProfit : ℚ
  currency : Str
  syncTimestamp : Str
  deriving DecidableEq, Repr

/-- The aggregate summary (lines 384-389). -/
structure Summary where
  totalRevenue : ℚ
  totalSpend : ℚ
  totalOrders : ℚ
  totalKenp : ℚ
  deriving DecidableEq, Repr

/-- The return value of `processUserData` (lines 380-390). -/
structure ProcessedData where
  combinedData : List CombinedRecord
  kdpData : List KdpEntry
  adsData : List AdEntry
  summary : Summary
  deriving DecidableEq, Repr

/-- The KDP flattening loop of `processUserData` (lines 324-334): skip syncs
without `data.salesData`, tag each sale with its sync. -/
def flattenKdp (kdpData : List KdpSync) : List KdpEntry :=
  kdpData.foldl
    (fun acc sync =>
      match sync.salesData with
      | none => acc
      | some sales =>
        acc ++ sales.map (fun sale =>
          { toKdpSale := sale, syncTimestamp := sync.timestamp,
            syncId := sync.id })) []

/-- The advertising flattening loop of `processUserData` (lines 337-347). -/
def flattenAds (adsData : List AdSync) : List AdEntry :=
  adsData.foldl
    (fun acc sync =>
      match sync.campaigns with
      | none => acc
      | some campaigns =>
        acc ++ campaigns.map (fun campaign =>
          { toAdCampaign := campaign, syncTimestamp := sync.timestamp,
            syncId := sync.id })) []

/-- The campaign-matching predicate of `processUserData` (lines 351-355):
both names truthy, and the lower-cased campaign name contains the first 20
characters of the title lower-cased, or the lower-cased title contains the
first 20 characters of the campaign name lower-cased. -/
def adMatches (kdp : KdpEntry) (ad : AdEntry) : Bool :=
  decide (ad.campaignName ≠ []) && decide (kdp.title ≠ []) &&
    (containsSub (jsLower (kdp.title.take 20)) (jsLower ad.campaignName) ||
     containsSub (jsLower (ad.campaignName.take 20)) (jsLower kdp.title))

/-- The per-record combination step of `processUserData` (lines 350-378):
aggregate the matching campaigns and build one `CombinedRecord`. -/
def combineOne (processedAds : List AdEntry) (kdp : KdpEntry) :
    CombinedRecord :=
  let matchingAds := processedAds.filter (adMatches kdp)
  let totalAdSpend := matchingAds.foldl (fun s ad => qAdd s (jsOr ad.spend 0)) 0
  let totalAdSales := matchingAds.foldl (fun s ad => qAdd s (jsOr ad.sales 0)) 0
  let avgAcos :=
    if matchingAds.length > 0 then
      qDivNat (matchingAds.foldl (fun s ad => qAdd s (jsOr ad.acos 0)) 0)
        matchingAds.length
    else 0
  { date := kdp.date
    title := kdp.title
    asin := kdp.asin
    marketplace := kdp.marketplace
    unitsSold := jsOr kdp.unitsSold 1
    royalty := jsOr kdp.royalty 0
    kenpRead := jsOr kdp.kenpReads 0
    adSpend := totalAdSpend
    adSales := totalAdSales
    acos := avgAcos
    netProfit := qSub (jsOr kdp.royalty 0) totalAdSpend
    currency := "USD".data
    syncTimestamp := kdp.syncTimestamp }

/-- `dashboard_server.js` `processUserData` (lines 317-391). -/
def processUserData (kdpData : List KdpSync) (adsData : List AdSync) :
    ProcessedData :=
  let processedKdp := flattenKdp kdpData
  let processedAds := flattenAds adsData
  let combinedData := processedKdp.map (combineOne processedAds)
  { combinedData := combinedData
    kdpData := processedKdp
    adsData := processedAds
    summary :=
      { totalRevenue := combinedData.foldl (fun s i => qAdd s i.royalty) 0
        totalSpend := combinedData.foldl (fun s i => qAdd s i.adSpend) 0
        totalOrders := combinedData.foldl (fun s i => qAdd s i.unitsSold) 0
        totalKenp := combinedData.foldl (fun s i => qAdd s i.kenpRead) 0 } }

end DS

namespace CJS

/-- State of the money-scanning automaton for the regex
`/\$[\d,]+\.?\d*/g` of `content.js` (a one-pass DFA equivalent to the
global regex scan: `dollar` = just behind a `$`, `body` = inside `[\d,]+`
with the digits collected, `frac` = behind the optional dot). -/
inductive MoneyScanState where
  | out
  | dollar
  | body (intDigits : Str)
  | frac (intDigits fracDigits : Str)

/-- `parseFloat(amount.replace(/[$,]/g, ''))` for a matched amount whose
integer digits are `intPart` and fractional digits are `fracPart`
(`none` = `NaN`, produced when the match contains no digit at all). -/
def moneyValue (intPart fracPart : Str) : Option ℚ :=
  if intPart = [] ∧ fracPart = [] then none
  else
    some (qAdd (natOfDigits intPart)
      (mkRat (natOfDigits fracPart) (10 ^ fracPart.length)))

/-- The amount pending in a scan state when the input ends. -/
def emitMoney : MoneyScanState → List (Option ℚ)
  | .out => []
  | .dollar => []
  | .body ds => [moneyValue ds []]
  | .frac ds fs => [moneyValue ds fs]

/-- One-pass scan for all matches of `/\$[\d,]+\.?\d*/g`, each parsed as by
`parseFloat` after stripping `$` and `,` (`none` = `NaN`). -/
def scanMoneyAux : MoneyScanState → Str → List (Option ℚ)
  | st, [] => emitMoney st
  | st, c :: rest =>
    match st with
    | .out =>
      if c = '$' then scanMoneyAux .dollar rest else scanMoneyAux .out rest
    | .dollar =>
      if c.isDigit then scanMoneyAux (.body [c]) rest
      else if c = ',' then scanMoneyAux (.body []) rest
      else if c = '$' then scanMoneyAux .dollar rest
      else scanMoneyAux .out rest
    | .body ds =>
      if c.isDigit then scanMoneyAux (.body (ds ++ [c])) rest
      else if c = ',' then scanMoneyAux (.body ds) rest
      else if c = '.' then scanMoneyAux (.frac ds []) rest
      else if c = '$' then moneyValue ds [] :: scanMoneyAux .dollar rest
      else moneyValue ds [] :: scanMoneyAux .out rest
    | .frac ds fs =>
      if c.isDigit then scanMoneyAux (.frac ds (fs ++ [c])) rest
      else if c = '$' then moneyValue ds fs :: scanMoneyAux .dollar rest
      else moneyValue ds fs :: scanMoneyAux .out rest

/-- `text.match(/\$[\d,]+\.?\d*/g)`, parsed. -/
def scanMoney (s : Str) : List (Option ℚ) := scanMoneyAux .out s

/-- A character of the class `[A-Z0-9]`. -/
def isUpperDigit (c : Char) : Bool := c.isUpper || c.isDigit

/-- First match of `/[A-Z0-9]{10}/`: the earliest run of ten consecutive
characters of the class. -/
def firstAsinMatch : Str → Option Str
  | [] => none
  | c :: rest =>
    let cand := (c :: rest).take 10
    if decide (cand.length = 10) && cand.all isUpperDigit then some cand
    else firstAsinMatch rest

/-- The mutable locals of `extractBookDataFromRow` (lines 211-217). -/
structure RowState where
  title : Str := []
  revenue : ℚ := 0
  sales : ℚ := 0
  kenpReads : ℚ := 0
  kenpRoyalties : ℚ := 0
  asin : Str := []
  marketplace : Str := []
  deriving DecidableEq, Repr

/-- The ASIN and marketplace steps of the per-cell loop (lines 258-267),
reached only when the KENP step did not throw. -/
def cellTailSteps (st : RowState) (text : Str) : RowState :=
  let st1 :=
    match firstAsinMatch text with
    | some m => if st.asin = [] then { st with asin := m } else st
    | none => st
  if containsSub ".com".data text || containsSub ".co.uk".data text ||
      containsSub ".de".data text then
    { st1 with marketplace := text }
  else st1

/-- One iteration of the `cells.forEach` loop of `extractBookDataFromRow`
(lines 220-268).  The KENP branch (line 250-256) evaluates
`parseInt(kempMatch[0])` — `kempMatch` is an undeclared identifier (the
variable one line above is spelled `kenpMatch`), so whenever the branch is
entered and `text.match(/\d+/)` is non-null the cell handler throws a
`ReferenceError`, modelled as `Except.error`. -/
def cellStep (st : RowState) (rawText : Str) : Except String RowState :=
  let text := jsTrim rawText
  let allDigits := decide (text ≠ []) && text.all Char.isDigit
  let st1 :=
    if decide (text.length > 10) && !containsSub "$".data text &&
        !allDigits && !containsSub "KENP".data text &&
        isLikelyBookTitle text then
      { st with title := text }
    else st
  let st2 :=
    { st1 with
      revenue := (scanMoney text).foldl
        (fun r v =>
          match v with
          | some value => if value > r then value else r
          | none => r) st1.revenue }
  let st3 :=
    if allDigits && decide ((natOfDigits text : ℚ) > 0) &&
        decide ((natOfDigits text : ℚ) < 10000) then
      if (natOfDigits text : ℚ) > st2.sales then
        { st2 with sales := (natOfDigits text : ℚ) }
      else st2
    else st2
  if containsSub "KENP".data text ||
      (allDigits && decide (text.length ≥ 3) &&
        decide ((natOfDigits text : ℚ) > 100)) then
    if text.any Char.isDigit then
      Except.error "ReferenceError: kempMatch is not defined"
    else Except.ok (cellTailSteps st3 text)
  else Except.ok (cellTailSteps st3 text)

/-- `content.js` `extractBookDataFromRow` (lines 210-291): run the per-cell
loop over the cell texts, then derive the KENP royalty approximation and
materialise the record when the minimum-signal condition holds; `now`
stands for `new Date().toISOString()`.  An uncaught JavaScript exception
surfaces as `Except.error`. -/
def extractBookDataFromRow (now : Str) (cells : List Str) (source : Str) :
    Except String (Option Book) := do
  let st ← cells.foldlM cellStep {}
  let kenpRoyalties :=
    if st.kenpReads > 0 ∧ st.kenpRoyalties = 0 then qMul st.kenpReads kenpRate
    else st.kenpRoyalties
  if st.title ≠ [] ∧ (st.revenue > 0 ∨ st.sales > 0 ∨ st.kenpReads > 0) then
    pure (some
      { title := st.title
        totalRoyalties := st.revenue
        totalSales := st.sales
        kenpReads := st.kenpReads
        kenpRoyalties := kenpRoyalties
        asin := st.asin
        marketplace := jsOrS st.marketplace "amazon.com".data
        country := extractCountryFromMarketplace st.marketplace
        source := source
        extractedAt := now })
  else pure none

end CJS

namespace CJS

/-- A JavaScript value as traversed by `extractBooksFromObject`: a string, a
number, a reference to a (possibly shared or cyclic) heap object, an array,
or `null`. -/
inductive JV where
  | str (s : Str)
  | num (q : ℚ)
  | ref (a : Nat)
  | arr (items : List JV)
  | null

/-- An object heap: each address carries the own enumerable properties of
one object, in `for...in` order.  Cycles are expressed by `JV.ref` back
into the heap. -/
abbrev Heap := List (Nat × List (Str × JV))

/-- The property list of the object at an address. -/
def heapGet (h : Heap) (a : Nat) : List (Str × JV) := (mGet h a).getD []

/-- `` path ? `${path}.${key}` : key `` (line 542). -/
def joinPath (path key : Str) : Str :=
  if path = [] then key else path ++ ".".data ++ key

/-- `` `${currentPath}[${index}]` `` (line 547). -/
def itemPath (path : Str) (i : Nat) : Str :=
  path ++ "[".data ++ (Nat.repr i).data ++ "]".data

/-- The string value of a property (`[]` when the property is absent or not
a string; a non-string truthy `title`/`name`/`productName` would make the
original code throw inside `isLikelyBookTitle` and is outside the modelled
input domain). -/
def fieldStr (fields : List (Str × JV)) (k : Str) : Str :=
  match mGet fields k with
  | some (.str s) => s
  | _ => []

/-- The numeric value of a property (`0` when absent or not a number). -/
def fieldNum (fields : List (Str × JV)) (k : Str) : ℚ :=
  match mGet fields k with
  | some (.num q) => q
  | _ => 0

/-- The book-likeness check applied when a property value is a non-array
object (lines 552-564): take `value.title || value.name ||
value.productName`, and if it passes `isLikelyBookTitle` materialise one
record with the `||`-chained metric fields. -/
def checkBook (now : Str) (h : Heap) (currentPath : Str) (a : Nat) :
    List Book :=
  let fields := heapGet h a
  let title := jsOrS (fieldStr fields "title".data)
    (jsOrS (fieldStr fields "name".data) (fieldStr fields "productName".data))
  if title ≠ [] ∧ isLikelyBookTitle title = true then
    [{ title := title
       totalRoyalties := jsOr (fieldNum fields "revenue".data)
         (jsOr (fieldNum fields "royalties".data)
           (jsOr (fieldNum fields "earnings".data) 0))
       totalSales := jsOr (fieldNum fields "sales".data)
         (jsOr (fieldNum fields "units".data)
           (jsOr (fieldNum fields "orders".data) 0))
       kenpReads := jsOr (fieldNum fields "kenp".data)
         (jsOr (fieldNum fields "kenpReads".data)
           (jsOr (fieldNum fields "reads".data) 0))
       asin := jsOrS (fieldStr fields "asin".data)
         (jsOrS (fieldStr fields "id".data) [])
       source := "js_object_".data ++ currentPath
       extractedAt := now }]
  else []

/-- A pending unit of work of the traversal: a recursive `traverse(value,
path)` call, the remainder of a `for...in` loop, or the remainder of an
array `forEach`. -/
inductive Task where
  | visit (path : Str) (v : JV)
  | fields (path : Str) (l : List (Str × JV))
  | items (path : Str) (idx : Nat) (l : List JV)

/-- Small-step execution of the `traverse` function of
`extractBooksFromObject` (lines 535-569), with an explicit worklist.  Each
step consumes one unit of `fuel`; `none` means the traversal did not finish
within `fuel` steps — in particular, a traversal that loops forever (the
code keeps no visited set) yields `none` for every `fuel`. -/
def run (now : Str) (h : Heap) : Nat → List Task → List Book →
    Option (List Book)
  | _, [], acc => some acc
  | 0, _ :: _, _ => none
  | fuel + 1, t :: rest, acc =>
    match t with
    | .visit path v =>
      match v with
      | .ref a => run now h fuel (.fields path (heapGet h a) :: rest) acc
      | .arr l =>
        run now h fuel
          (.fields path ((l.enum).map (fun p => ((Nat.repr p.1).data, p.2))) :: rest) acc
      | _ => run now h fuel rest acc
    | .fields path l =>
      match l with
      | [] => run now h fuel rest acc
      | (key, value) :: fs =>
        let currentPath := joinPath path key
        match value with
        | .arr items =>
          run now h fuel (.items currentPath 0 items :: .fields path fs :: rest) acc
        | .ref a =>
          run now h fuel (.visit currentPath (.ref a) :: .fields path fs :: rest)
            (acc ++ checkBook now h currentPath a)
        | _ => run now h fuel (.fields path fs :: rest) acc
    | .items path i l =>
      match l with
      | [] => run now h fuel rest acc
      | item :: is =>
        match item with
        | .ref a =>
          run now h fuel
            (.visit (itemPath path i) (.ref a) :: .items path (i + 1) is :: rest) acc
        | .arr l2 =>
          run now h fuel
            (.visit (itemPath path i) (.arr l2) :: .items path (i + 1) is :: rest) acc
        | _ => run now h fuel (.items path (i + 1) is :: rest) acc

/-- `content.js` `extractBooksFromObject` (lines 532-573), with the heap and
a step budget made explicit. -/
def extractBooksFromObject (now : Str) (h : Heap) (fuel : Nat) (obj : JV) :
    Option (List Book) :=
  run now h fuel [Task.visit [] obj] []

end CJS

/-! ### Generic association-list lemmas for the `Map` model -/

theorem jsOr_zero (x : ℚ) : jsOr x 0 = x := by
  rw [jsOr]
  split
  · rename_i h
    exact h.symm
  · rfl

theorem mGet_append_none {κ α : Type} [DecidableEq κ]
    (m1 m2 : List (κ × α)) (k : κ) (h : mGet m1 k = none) :
    mGet (m1 ++ m2) k = mGet m2 k := by
  induction m1 with
  | nil => rfl
  | cons e rest ih =>
    rw [mGet] at h
    rw [List.cons_append, mGet]
    split
    · rename_i he
      rw [if_pos he] at h
      exact absurd h (by simp)
    · rename_i he
      rw [if_neg he] at h
      exact ih h

theorem mGet_append_some {κ α : Type} [DecidableEq κ]
    (m1 m2 : List (κ × α)) (k : κ) (v : α) (h : mGet m1 k = some v) :
    mGet (m1 ++ m2) k = some v := by
  induction m1 with
  | nil => simp [mGet] at h
  | cons e rest ih =>
    rw [mGet] at h
    rw [List.cons_append, mGet]
    split
    · rename_i he
      rw [if_pos he] at h
      exact h
    · rename_i he
      rw [if_neg he] at h
      exact ih h

theorem mGet_mapSet_self {κ α : Type} [DecidableEq κ]
    (m : List (κ × α)) (k : κ) (v : α) : mGet (mapSet m k v) k = some v := by
  induction m with
  | nil => simp [mapSet, mGet]
  | cons e rest ih =>
    rw [mapSet]
    split
    · rw [mGet, if_pos rfl]
    · rename_i he
      rw [mGet, if_neg he]
      exact ih

theorem mGet_mapSet_ne {κ α : Type} [DecidableEq κ]
    (m : List (κ × α)) (k k' : κ) (v : α) (h : k' ≠ k) :
    mGet (mapSet m k v) k' = mGet m k' := by
  induction m with
  | nil =>
    show mGet [(k, v)] k' = none
    rw [mGet, if_neg (fun hh => h hh.symm)]
    rfl
  | cons e rest ih =>
    obtain ⟨k0, v0⟩ := e
    rw [mapSet]
    by_cases he : k0 = k
    · subst he
      rw [if_pos rfl, mGet, if_neg (fun hh => h hh.symm), mGet,
        if_neg (fun hh => h hh.symm)]
    · rw [if_neg he, mGet, mGet]
      by_cases hk0 : k0 = k'
      · rw [if_pos hk0, if_pos hk0]
      · rw [if_neg hk0, if_neg hk0]
        exact ih

theorem mGet_eq_none_iff {κ α : Type} [DecidableEq κ]
    (m : List (κ × α)) (k : κ) :
    mGet m k = none ↔ k ∉ m.map Prod.fst := by
  induction m with
  | nil => simp [mGet]
  | cons e rest ih =>
    obtain ⟨k0, v0⟩ := e
    rw [mGet]
    by_cases he : k0 = k
    · subst he
      simp
    · simp only [if_neg he, List.map_cons, List.mem_cons, ih]
      constructor
      · intro hk h1
        rcases h1 with h1 | h1
        · exact he h1.symm
        · exact hk h1
      · intro hk h1
        exact hk (Or.inr h1)

theorem mapSet_keys_of_mem {κ α : Type} [DecidableEq κ]
    (m : List (κ × α)) (k : κ) (v : α) (h : mGet m k ≠ none) :
    (mapSet m k v).map Prod.fst = m.map Prod.fst := by
  induction m with
  | nil => exact absurd rfl h
  | cons e rest ih =>
    rw [mGet] at h
    rw [mapSet]
    split
    · rename_i he
      simp [he]
    · rename_i he
      rw [if_neg he] at h
      simp only [List.map_cons, List.cons.injEq, true_and]
      exact ih h

theorem countP_key_eq_one {α : Type} (m : List (Str × α)) (k : Str)
    (hnd : (m.map Prod.fst).Nodup) (hs : mGet m k ≠ none) :
    m.countP (fun e => decide (e.1 = k)) = 1 := by
  induction m with
  | nil => exact absurd rfl hs
  | cons e rest ih =>
    rw [mGet] at hs
    rw [List.map_cons, List.nodup_cons] at hnd
    rw [List.countP_cons]
    by_cases he : e.1 = k
    · rw [if_pos he] at hs
      have hrest : rest.countP (fun e => decide (e.1 = k)) = 0 := by
        rw [List.countP_eq_zero]
        intro a ha
        simp only [decide_eq_true_eq]
        intro hak
        refine hnd.1 ?_
        rw [he, ← hak]
        exact List.mem_map_of_mem Prod.fst ha
      simp [he, hrest]
    · rw [if_neg he] at hs
      rw [ih hnd.2 hs]
      simp [he]

/-! ### C1: the table-row extractor throws on KENP-ish cells -/

/-- C1.  The claim states that `extractBookDataFromRow` never throws,
in particular not for a cell whose text contains `KENP` or is a standalone
integer of three or more digits greater than 100.  The code contradicts the
claim: the KENP branch (content.js line 253) reads the undeclared
identifier `kempMatch` (a typo for `kenpMatch`), so exactly those cells
raise a `ReferenceError`.  At the concrete row `["A Reasonably Long Book
Title", "500"]` the extractor returns an error instead of a record. -/
theorem extractBookDataFromRow_throws_on_kenp_cell :
    CJS.extractBookDataFromRow []
        ["A Reasonably Long Book Title".data, "500".data] "table_0_row_1".data =
      Except.error "ReferenceError: kempMatch is not defined" := rfl

/-! ### C2: the nested-object extractor diverges on a cyclic object -/

/-- The one-object cyclic heap `obj = {}; obj.self = obj`. -/
def cycHeap : CJS.Heap := [(0, [("self".data, CJS.JV.ref 0)])]

theorem run_cycle_none (now : Str) :
    ∀ fuel : Nat,
      (∀ path rest acc,
        CJS.run now cycHeap fuel (CJS.Task.visit path (CJS.JV.ref 0) :: rest) acc = none) ∧
      (∀ path rest acc,
        CJS.run now cycHeap fuel
          (CJS.Task.fields path [("self".data, CJS.JV.ref 0)] :: rest) acc = none) := by
  intro fuel
  induction fuel with
  | zero => exact ⟨fun _ _ _ => rfl, fun _ _ _ => rfl⟩
  | succ n ih =>
    exact ⟨fun path rest acc => ih.2 path rest acc,
           fun path rest acc => ih.1 (CJS.joinPath path "self".data)
             (CJS.Task.fields path [] :: rest)
             (acc ++ CJS.checkBook now cycHeap (CJS.joinPath path "self".data) 0)⟩

/-- C2.  The claim states that `extractBooksFromObject` terminates on every
input, cyclic object graphs included, by tracking visited object
identities.  The code keeps no visited set: on the self-referential object
`obj.self = obj` the recursion never terminates — under every finite step
budget `fuel` the traversal is still running (`none`), so no budget
suffices and the real code overflows the stack. -/
theorem extractBooksFromObject_diverges_on_cycle :
    ∀ (now : Str) (fuel : Nat),
      CJS.extractBooksFromObject now cycHeap fuel (CJS.JV.ref 0) = none :=
  fun now fuel => (run_cycle_none now fuel).1 [] [] []

/-! ### Per-key semantics of the content.js merge engine -/

namespace CJS

/-- The candidates of `bs` that land at dedup key `k` (those the forEach
loop does not skip). -/
def keyFilter (bs : List Book) (k : Str) : List Book :=
  bs.filter (fun b => decide (b.title ≠ []) && decide (dedupKey b = k))

/-- The effect of one candidate on the map entry of its own key: first
insertion via `freshRecord`, later candidates via `mergeInto`. -/
def entryFold (now : Str) (o : Option Book) (b : Book) : Option Book :=
  match o with
  | none => some (freshRecord now b)
  | some e => some (mergeInto e b)

theorem foldl_dedupStep_mGet (now : Str) :
    ∀ (bs : List Book) (m : List (Str × Book)) (k : Str),
      mGet (bs.foldl (dedupStep now) m) k =
        (keyFilter bs k).foldl (entryFold now) (mGet m k) := by
  intro bs
  induction bs with
  | nil => intro m k; rfl
  | cons b rest ih =>
    intro m k
    rw [List.foldl_cons, ih]
    by_cases ht : b.title = []
    · have hstep : dedupStep now m b = m := by rw [dedupStep, if_pos ht]
      have hfil : keyFilter (b :: rest) k = keyFilter rest k := by
        simp [keyFilter, List.filter_cons, ht]
      rw [hstep, hfil]
    · by_cases hk : dedupKey b = k
      · have hfil : keyFilter (b :: rest) k = b :: keyFilter rest k := by
          simp [keyFilter, List.filter_cons, ht, hk]
        rw [hfil, List.foldl_cons]
        subst hk
        congr 1
        rw [dedupStep, if_neg ht]
        cases hg : mGet m (dedupKey b) with
        | some e =>
          rw [entryFold]
          simp only [hg]
          exact mGet_mapSet_self m (dedupKey b) (mergeInto e b)
        | none =>
          rw [entryFold]
          simp only [hg]
          rw [mGet_append_none m _ _ hg, mGet, if_pos rfl]
      · have hfil : keyFilter (b :: rest) k = keyFilter rest k := by
          simp [keyFilter, List.filter_cons, hk]
        rw [hfil]
        congr 1
        rw [dedupStep, if_neg ht]
        cases hg : mGet m (dedupKey b) with
        | some e =>
          simp only [hg]
          exact mGet_mapSet_ne m (dedupKey b) k _ (fun hh => hk hh.symm)
        | none =>
          simp only [hg]
          cases hq : mGet m k with
          | some v => exact mGet_append_some m _ k v hq
          | none =>
            rw [mGet_append_none m _ k hq, mGet, if_neg hk]
            rfl

/-- Folding the per-key entry function over a nonempty list always yields an
entry. -/
theorem entryFold_isSome (now : Str) :
    ∀ (l : List Book) (o : Option Book),
      (l.foldl (entryFold now) o).isSome = (o.isSome || !l.isEmpty) := by
  intro l
  induction l with
  | nil => intro o; simp
  | cons b rest ih =>
    intro o
    rw [List.foldl_cons, ih]
    cases o <;> simp [entryFold]

/-- One merge step on the numeric projection of an entry: the first
candidate seeds the value, later candidates fold in with `Math.max`. -/
def maxStep (o : Option ℚ) (q : ℚ) : Option ℚ :=
  some (match o with | none => q | some a => jsMax a q)

theorem map_entryFold (now : Str) (f : Book → ℚ)
    (hfresh : ∀ b, f (freshRecord now b) = f b)
    (hmerge : ∀ e b, f (mergeInto e b) = jsMax (f e) (f b)) :
    ∀ (l : List Book) (o : Option Book),
      Option.map f (l.foldl (entryFold now) o) =
        (l.map f).foldl maxStep (Option.map f o) := by
  intro l
  induction l with
  | nil => intro o; rfl
  | cons b rest ih =>
    intro o
    rw [List.foldl_cons, List.map_cons, List.foldl_cons, ih]
    congr 1
    cases o with
    | none => simp [entryFold, maxStep, hfresh]
    | some e => simp [entryFold, maxStep, hmerge]

theorem maxStep_swap (o : Option ℚ) (a b : ℚ) :
    maxStep (maxStep o a) b = maxStep (maxStep o b) a := by
  cases o with
  | none => simp [maxStep, jsMax_eq_max, max_comm]
  | some c =>
    simp only [maxStep, jsMax_eq_max, Option.some.injEq]
    rw [max_assoc, max_comm a b, ← max_assoc]

theorem foldl_maxStep_perm {l1 l2 : List ℚ} (h : l1.Perm l2) :
    ∀ o, l1.foldl maxStep o = l2.foldl maxStep o := by
  induction h with
  | nil => intro o; rfl
  | cons x _ ih =>
    intro o
    rw [List.foldl_cons, List.foldl_cons]
    exact ih _
  | swap x y l =>
    intro o
    rw [List.foldl_cons, List.foldl_cons, List.foldl_cons, List.foldl_cons,
      maxStep_swap]
  | trans _ _ ih1 ih2 =>
    intro o
    rw [ih1, ih2]

theorem freshRecord_totalRoyalties (now : Str) (b : Book) :
    (freshRecord now b).totalRoyalties = b.totalRoyalties := jsOr_zero _

theorem freshRecord_totalSales (now : Str) (b : Book) :
    (freshRecord now b).totalSales = b.totalSales := jsOr_zero _

theorem freshRecord_kenpReads (now : Str) (b : Book) :
    (freshRecord now b).kenpReads = b.kenpReads := jsOr_zero _

theorem mergeInto_totalRoyalties (e b : Book) :
    (mergeInto e b).totalRoyalties = jsMax e.totalRoyalties b.totalRoyalties := by
  simp [mergeInto, jsOr_zero]

theorem mergeInto_totalSales (e b : Book) :
    (mergeInto e b).totalSales = jsMax e.totalSales b.totalSales := by
  simp [mergeInto, jsOr_zero]

theorem mergeInto_kenpReads (e b : Book) :
    (mergeInto e b).kenpReads = jsMax e.kenpReads b.kenpReads := by
  simp [mergeInto, jsOr_zero]

end CJS

/-! ### Key-set lemmas for both merge engines -/

theorem keys_nodup_append {κ α : Type} [DecidableEq κ]
    (m : List (κ × α)) (k : κ) (v : α)
    (hnd : (m.map Prod.fst).Nodup) (hk : mGet m k = none) :
    ((m ++ [(k, v)]).map Prod.fst).Nodup := by
  rw [List.map_append]
  refine List.Nodup.append hnd (by simp) ?_
  intro a ha hb
  simp only [List.map_cons, List.map_nil, List.mem_singleton] at hb
  subst hb
  exact (mGet_eq_none_iff m a).mp hk ha

theorem CJS.cjs_dedupStep_keys_nodup (now : Str) (m : List (Str × CJS.Book))
    (b : CJS.Book) (hnd : (m.map Prod.fst).Nodup) :
    ((CJS.dedupStep now m b).map Prod.fst).Nodup := by
  rw [CJS.dedupStep]
  by_cases ht : b.title = []
  · rw [if_pos ht]
    exact hnd
  · rw [if_neg ht]
    cases hg : mGet m (CJS.dedupKey b) with
    | some e =>
      simp only [hg]
      rw [mapSet_keys_of_mem m _ _ (by rw [hg]; simp)]
      exact hnd
    | none =>
      simp only [hg]
      exact keys_nodup_append m _ _ hnd hg

theorem CJS.foldl_dedupStep_keys_nodup (now : Str) :
    ∀ (bs : List CJS.Book) (m : List (Str × CJS.Book)),
      (m.map Prod.fst).Nodup →
      ((bs.foldl (CJS.dedupStep now) m).map Prod.fst).Nodup := by
  intro bs
  induction bs with
  | nil => intro m hnd; exact hnd
  | cons b rest ih =>
    intro m hnd
    rw [List.foldl_cons]
    exact ih _ (CJS.cjs_dedupStep_keys_nodup now m b hnd)

theorem P0.dedupStep_mGet_isSome (rng : Nat → Str) (now : Str)
    (s : List (Str × P0.Book) × Nat) (b : P0.Book) (k : Str) :
    (mGet ((P0.dedupStep rng now s b).1) k).isSome =
      ((mGet s.1 k).isSome ||
        (P0.isValidBookData b && decide (P0.dedupKey b = k))) := by
  rw [P0.dedupStep]
  by_cases hv : P0.isValidBookData b = true
  · rw [if_neg (by simp [hv])]
    cases hg : mGet s.1 (P0.dedupKey b) with
    | some e =>
      simp only [hg]
      by_cases hk : P0.dedupKey b = k
      · subst hk
        rw [mGet_mapSet_self]
        simp [hg]
      · rw [mGet_mapSet_ne s.1 (P0.dedupKey b) k _ (fun hh => hk hh.symm)]
        simp [hk]
    | none =>
      simp only [hg]
      by_cases hk : P0.dedupKey b = k
      · subst hk
        rw [mGet_append_none s.1 _ _ hg, mGet, if_pos rfl]
        simp [hv]
      · cases hq : mGet s.1 k with
        | some v =>
          rw [mGet_append_some s.1 _ k v hq]
          simp [hk]
        | none =>
          rw [mGet_append_none s.1 _ k hq, mGet, if_neg hk]
          simp [hk, mGet]
  · rw [if_pos (by simp [hv])]
    rw [Bool.not_eq_true] at hv
    simp [hv]

theorem P0.foldl_mGet_isSome (rng : Nat → Str) (now : Str) :
    ∀ (bs : List P0.Book) (s : List (Str × P0.Book) × Nat) (k : Str),
      (mGet ((bs.foldl (P0.dedupStep rng now) s).1) k).isSome =
        ((mGet s.1 k).isSome ||
          bs.any (fun b => P0.isValidBookData b && decide (P0.dedupKey b = k))) := by
  intro bs
  induction bs with
  | nil => intro s k; simp
  | cons b rest ih =>
    intro s k
    rw [List.foldl_cons, ih, P0.dedupStep_mGet_isSome, List.any_cons,
      Bool.or_assoc]

theorem P0.p0_dedupStep_keys_nodup (rng : Nat → Str) (now : Str)
    (s : List (Str × P0.Book) × Nat) (b : P0.Book)
    (hnd : (s.1.map Prod.fst).Nodup) :
    (((P0.dedupStep rng now s b).1).map Prod.fst).Nodup := by
  rw [P0.dedupStep]
  by_cases hv : P0.isValidBookData b = true
  · rw [if_neg (by simp [hv])]
    cases hg : mGet s.1 (P0.dedupKey b) with
    | some e =>
      simp only [hg]
      rw [mapSet_keys_of_mem s.1 _ _ (by rw [hg]; simp)]
      exact hnd
    | none =>
      simp only [hg]
      exact keys_nodup_append s.1 _ _ hnd hg
  · rw [if_pos (by simp [hv])]
    exact hnd

theorem P0.foldl_keys_nodup (rng : Nat → Str) (now : Str) :
    ∀ (bs : List P0.Book) (s : List (Str × P0.Book) × Nat),
      (s.1.map Prod.fst).Nodup →
      (((bs.foldl (P0.dedupStep rng now) s).1).map Prod.fst).Nodup := by
  intro bs
  induction bs with
  | nil => intro s hnd; exact hnd
  | cons b rest ih =>
    intro s hnd
    rw [List.foldl_cons]
    exact ih _ (P0.p0_dedupStep_keys_nodup rng now s b hnd)

theorem jsOrS_of_ne (a b : Str) (h : a ≠ []) : jsOrS a b = a := by
  rw [jsOrS, if_neg h]

/-! ### C3: what the dedup key really is, engine by engine -/

/-- C3, counterexample.  Two valid candidates carrying the same non-empty
ASIN `B000000001` but different titles do NOT collapse in
`content.js` `processAndDeduplicateBooks`: its dedup key is always the
lower-cased trimmed title (line 581) and never consults the ASIN, so the
output has two records where the claim promises one. -/
theorem sameAsin_not_collapsed_in_contentjs :
    (CJS.processAndDeduplicateBooks []
      [{ title := "Alpha".data, asin := "B000000001".data, totalRoyalties := 5 },
       { title := "Beta".data, asin := "B000000001".data, totalSales := 3 }]).length = 2 ∧
    ("B000000001".data : Str) ≠ [] := by
  constructor
  · decide
  · decide

/-- C3, amended.  (a) In the `part_000` engine (`P0`), the dedup key is the
ASIN when non-empty, else the lower-cased trimmed title; two valid
candidates in the input with the same non-empty ASIN end in exactly one
entry of the canonical map, and the output list holds exactly the map
values.  (b) In the `content.js` engine (`CJS`), the dedup key is always
the lower-cased trimmed title; two candidates with equal normalized titles
end in exactly one entry of the canonical map. -/
theorem dedupKey_collapse :
    (∀ (rng : Nat → Str) (now : Str) (bs : List P0.Book) (b1 b2 : P0.Book),
      b1 ∈ bs → b2 ∈ bs →
      P0.isValidBookData b1 = true → P0.isValidBookData b2 = true →
      b1.asin ≠ [] → b1.asin = b2.asin →
        (P0.buildBookMap rng now bs).countP
          (fun e => decide (e.1 = b1.asin)) = 1) ∧
    (∀ (now : Str) (bs : List CJS.Book) (b1 b2 : CJS.Book),
      b1 ∈ bs → b2 ∈ bs → b1.title ≠ [] → b2.title ≠ [] →
      CJS.dedupKey b1 = CJS.dedupKey b2 →
        (CJS.buildBookMap now bs).countP
          (fun e => decide (e.1 = CJS.dedupKey b1)) = 1) ∧
    (∀ (rng : Nat → Str) (now : Str) (bs : List P0.Book),
      P0.processAndDeduplicateBooks rng now bs =
        (P0.buildBookMap rng now bs).map Prod.snd) := by
  refine ⟨?_, ?_, fun _ _ _ => rfl⟩
  · intro rng now bs b1 b2 h1 h2 hv1 hv2 ha hEq
    have hkey : P0.dedupKey b1 = b1.asin := jsOrS_of_ne _ _ ha
    apply countP_key_eq_one
    · exact P0.foldl_keys_nodup rng now bs ([], 0) (by simp)
    · have hs : (mGet (P0.buildBookMap rng now bs) b1.asin).isSome = true := by
        rw [P0.buildBookMap, P0.foldl_mGet_isSome]
        have : bs.any
            (fun b => P0.isValidBookData b && decide (P0.dedupKey b = b1.asin)) = true := by
          rw [List.any_eq_true]
          exact ⟨b1, h1, by simp [hv1, hkey]⟩
        simp [this]
      intro hnone
      rw [hnone] at hs
      simp at hs
  · intro now bs b1 b2 h1 h2 ht1 ht2 hEq
    apply countP_key_eq_one
    · exact CJS.foldl_dedupStep_keys_nodup now bs [] (by simp)
    · intro hnone
      rw [CJS.buildBookMap, CJS.foldl_dedupStep_mGet] at hnone
      have hmem : b1 ∈ CJS.keyFilter bs (CJS.dedupKey b1) := by
        rw [CJS.keyFilter, List.mem_filter]
        exact ⟨h1, by simp [ht1]⟩
      cases hfl : CJS.keyFilter bs (CJS.dedupKey b1) with
      | nil =>
        rw [hfl] at hmem
        simp at hmem
      | cons x xs =>
        rw [hfl] at hnone
        have hsome := CJS.entryFold_isSome now (x :: xs)
          (mGet ([] : List (Str × CJS.Book)) (CJS.dedupKey b1))
        rw [hnone] at hsome
        simp at hsome

/-- C3, witness for `dedupKey_collapse`: concrete same-ASIN candidates in
the `part_000` engine and concrete equal-normalized-title candidates in the
`content.js` engine each end in exactly one map entry. -/
theorem dedupKey_collapse_witness :
    ((P0.buildBookMap (fun _ => []) []
        [{ title := "Alpha".data, asin := "B000000001".data, totalRoyalties := 5 },
         { title := "Beta".data, asin := "B000000001".data, totalSales := 3 }]).countP
      (fun e => decide (e.1 = "B000000001".data)) = 1) ∧
    ((CJS.buildBookMap []
        [{ title := "My Book".data, totalRoyalties := 5 },
         { title := "  my book ".data, totalSales := 3 }]).countP
      (fun e => decide (e.1 = CJS.dedupKey
        ({ title := "My Book".data, totalRoyalties := 5 } : CJS.Book))) = 1) := by
  constructor
  · exact dedupKey_collapse.1 (fun _ => []) []
      [{ title := "Alpha".data, asin := "B000000001".data, totalRoyalties := 5 },
       { title := "Beta".data, asin := "B000000001".data, totalSales := 3 }]
      { title := "Alpha".data, asin := "B000000001".data, totalRoyalties := 5 }
      { title := "Beta".data, asin := "B000000001".data, totalSales := 3 }
      (by decide) (by decide) (by decide) (by decide) (by decide) (by decide)
  · exact dedupKey_collapse.2.1 []
      [{ title := "My Book".data, totalRoyalties := 5 },
       { title := "  my book ".data, totalSales := 3 }]
      { title := "My Book".data, totalRoyalties := 5 }
      { title := "  my book ".data, totalSales := 3 }
      (by decide) (by decide) (by decide) (by decide) (by decide)

/-! ### C4: order-(in)dependence of the numeric merge -/

/-- C4, counterexample.  Permuting the candidate list CAN change a numeric
field of the canonical record: the read-derived fallback `book.kenpRoyalties
|| (book.kenpReads * 0.004) || 0` runs only when a record is first inserted
(line 603), not on merges, so the candidate that happens to arrive first
decides whether the fallback applies.  With `A = {title "abc",
totalRoyalties 1, kenpReads 1000}` and `B = {title "abc", totalRoyalties 1,
kenpRoyalties 2}`, order `[A, B]` yields `kenpRoyalties = 4` while the
permuted order `[B, A]` yields `kenpRoyalties = 2`. -/
theorem merge_not_order_independent_for_kenpRoyalties :
    (CJS.processAndDeduplicateBooks []
        [{ title := "abc".data, totalRoyalties := 1, kenpReads := 1000 },
         { title := "abc".data, totalRoyalties := 1, kenpRoyalties := 2 }]).map
      (fun b => b.kenpRoyalties) = [4] ∧
    (CJS.processAndDeduplicateBooks []
        [{ title := "abc".data, totalRoyalties := 1, kenpRoyalties := 2 },
         { title := "abc".data, totalRoyalties := 1, kenpReads := 1000 }]).map
      (fun b => b.kenpRoyalties) = [2] ∧
    ([({ title := "abc".data, totalRoyalties := 1, kenpReads := 1000 } : CJS.Book),
      { title := "abc".data, totalRoyalties := 1, kenpRoyalties := 2 }].Perm
     [{ title := "abc".data, totalRoyalties := 1, kenpRoyalties := 2 },
      { title := "abc".data, totalRoyalties := 1, kenpReads := 1000 }]) := by
  refine ⟨by decide, by decide, by decide⟩

/-- C4, amended.  Permuting the candidate list never changes the
`totalRoyalties`, `totalSales` or `kenpReads` of the canonical record at any
dedup key of the `content.js` merge engine (those fields are seeded with the
candidate value and folded with `Math.max`, which is commutative and
associative); `kenpRoyalties` is excluded because its insertion-time
read-derived fallback makes it order-dependent (see the counterexample). -/
theorem merge_order_independent_numeric_fields :
    ∀ (now : Str) (bs1 bs2 : List CJS.Book), bs1.Perm bs2 → ∀ k : Str,
      (Option.map (fun b => b.totalRoyalties) (mGet (CJS.buildBookMap now bs1) k) =
        Option.map (fun b => b.totalRoyalties) (mGet (CJS.buildBookMap now bs2) k)) ∧
      (Option.map (fun b => b.totalSales) (mGet (CJS.buildBookMap now bs1) k) =
        Option.map (fun b => b.totalSales) (mGet (CJS.buildBookMap now bs2) k)) ∧
      (Option.map (fun b => b.kenpReads) (mGet (CJS.buildBookMap now bs1) k) =
        Option.map (fun b => b.kenpReads) (mGet (CJS.buildBookMap now bs2) k)) := by
  intro now bs1 bs2 h k
  have hfil : (CJS.keyFilter bs1 k).Perm (CJS.keyFilter bs2 k) := h.filter _
  refine ⟨?_, ?_, ?_⟩
  · rw [CJS.buildBookMap, CJS.buildBookMap, CJS.foldl_dedupStep_mGet,
      CJS.foldl_dedupStep_mGet,
      CJS.map_entryFold now _ (CJS.freshRecord_totalRoyalties now)
        CJS.mergeInto_totalRoyalties,
      CJS.map_entryFold now _ (CJS.freshRecord_totalRoyalties now)
        CJS.mergeInto_totalRoyalties]
    exact CJS.foldl_maxStep_perm (hfil.map _) _
  · rw [CJS.buildBookMap, CJS.buildBookMap, CJS.foldl_dedupStep_mGet,
      CJS.foldl_dedupStep_mGet,
      CJS.map_entryFold now _ (CJS.freshRecord_totalSales now)
        CJS.mergeInto_totalSales,
      CJS.map_entryFold now _ (CJS.freshRecord_totalSales now)
        CJS.mergeInto_totalSales]
    exact CJS.foldl_maxStep_perm (hfil.map _) _
  · rw [CJS.buildBookMap, CJS.buildBookMap, CJS.foldl_dedupStep_mGet,
      CJS.foldl_dedupStep_mGet,
      CJS.map_entryFold now _ (CJS.freshRecord_kenpReads now)
        CJS.mergeInto_kenpReads,
      CJS.map_entryFold now _ (CJS.freshRecord_kenpReads now)
        CJS.mergeInto_kenpReads]
    exact CJS.foldl_maxStep_perm (hfil.map _) _

/-- C4, witness for `merge_order_independent_numeric_fields` at a concrete
permuted pair of candidate lists and the key `"abc"`. -/
theorem merge_order_independent_numeric_fields_witness :
    (Option.map (fun b => b.totalRoyalties)
        (mGet (CJS.buildBookMap []
          [{ title := "abc".data, totalRoyalties := 1, kenpReads := 1000 },
           { title := "abc".data, totalRoyalties := 1, kenpRoyalties := 2 }]) "abc".data) =
      Option.map (fun b => b.totalRoyalties)
        (mGet (CJS.buildBookMap []
          [{ title := "abc".data, totalRoyalties := 1, kenpRoyalties := 2 },
           { title := "abc".data, totalRoyalties := 1, kenpReads := 1000 }]) "abc".data)) ∧
    (Option.map (fun b => b.totalSales)
        (mGet (CJS.buildBookMap []
          [{ title := "abc".data, totalRoyalties := 1, kenpReads := 1000 },
           { title := "abc".data, totalRoyalties := 1, kenpRoyalties := 2 }]) "abc".data) =
      Option.map (fun b => b.totalSales)
        (mGet (CJS.buildBookMap []
          [{ title := "abc".data, totalRoyalties := 1, kenpRoyalties := 2 },
           { title := "abc".data, totalRoyalties := 1, kenpReads := 1000 }]) "abc".data)) ∧
    (Option.map (fun b => b.kenpReads)
        (mGet (CJS.buildBookMap []
          [{ title := "abc".data, totalRoyalties := 1, kenpReads := 1000 },
           { title := "abc".data, totalRoyalties := 1, kenpRoyalties := 2 }]) "abc".data) =
      Option.map (fun b => b.kenpReads)
        (mGet (CJS.buildBookMap []
          [{ title := "abc".data, totalRoyalties := 1, kenpRoyalties := 2 },
           { title := "abc".data, totalRoyalties := 1, kenpReads := 1000 }]) "abc".data)) :=
  merge_order_independent_numeric_fields []
    [{ title := "abc".data, totalRoyalties := 1, kenpReads := 1000 },
     { title := "abc".data, totalRoyalties := 1, kenpRoyalties := 2 }]
    [{ title := "abc".data, totalRoyalties := 1, kenpRoyalties := 2 },
     { title := "abc".data, totalRoyalties := 1, kenpReads := 1000 }]
    (by decide) "abc".data

/-! ### C5: the string-field merge policy, engine by engine -/

theorem jsOrS_nil (b : Str) : jsOrS [] b = b := by
  rw [jsOrS, if_pos rfl]

/-- C5, counterexample.  In the background script's `mergeBookData`
(`part_001` lines 693-700) the spread `{...existing, ...book, ...}` lets
every property present on the incoming book overwrite the existing
canonical value: merging an update with `country: "DE"` into an existing
record with non-empty `country: "UK"` (same ASIN, hence same dedup key)
yields `"DE"` — the existing non-empty value is overwritten, contrary to
the claim. -/
theorem incoming_overwrites_existing_in_background_merge :
    (P1.mergeBookData "T".data
        [{ asin := some "B000000001".data, title := some "Old Title".data,
           country := some "UK".data }]
        [{ asin := some "B000000001".data, title := some "New Title".data,
           country := some "DE".data }]).map (fun b => b.country) =
      [some "DE".data] ∧
    (some "DE".data : Option Str) ≠ some "UK".data := by
  refine ⟨by decide, by decide⟩

/-- C5, amended.  (a) In the `content.js` merge (`processAndDeduplicateBooks`
lines 592-594) each of `asin`, `marketplace`, `country` of the merged record
is the first non-empty value with the existing canonical value preferred,
and an existing non-empty value is never overwritten.  (b) In the background
script's `mergeBookData` (`part_001`), a property present on the incoming
book overwrites the existing value (object spread, incoming last), and the
existing value survives only when the incoming book lacks the property;
only `totalRoyalties`, `totalSales`, `kenpReads` are folded with max. -/
theorem string_field_merge_policy :
    (∀ e b : CJS.Book,
      ((e.asin ≠ [] → (CJS.mergeInto e b).asin = e.asin) ∧
        (e.asin = [] → b.asin ≠ [] → (CJS.mergeInto e b).asin = b.asin)) ∧
      ((e.marketplace ≠ [] → (CJS.mergeInto e b).marketplace = e.marketplace) ∧
        (e.marketplace = [] → b.marketplace ≠ [] →
          (CJS.mergeInto e b).marketplace = b.marketplace)) ∧
      ((e.country ≠ [] → (CJS.mergeInto e b).country = e.country) ∧
        (e.country = [] → b.country ≠ [] →
          (CJS.mergeInto e b).country = b.country))) ∧
    (∀ (now : Str) (e b : P1.Book),
      ((∀ s, b.asin = some s → (P1.spreadMerge now e b).asin = some s) ∧
        (b.asin = none → (P1.spreadMerge now e b).asin = e.asin)) ∧
      ((∀ s, b.country = some s → (P1.spreadMerge now e b).country = some s) ∧
        (b.country = none → (P1.spreadMerge now e b).country = e.country)) ∧
      ((∀ s, b.marketplace = some s →
          (P1.spreadMerge now e b).marketplace = some s) ∧
        (b.marketplace = none →
          (P1.spreadMerge now e b).marketplace = e.marketplace)) ∧
      ((∀ s, b.source = some s → (P1.spreadMerge now e b).source = some s) ∧
        (b.source = none → (P1.spreadMerge now e b).source = e.source))) := by
  constructor
  · intro e b
    refine ⟨⟨?_, ?_⟩, ⟨?_, ?_⟩, ⟨?_, ?_⟩⟩
    · intro h
      simp only [CJS.mergeInto]
      rw [jsOrS_of_ne _ _ h, jsOrS_of_ne _ _ h]
    · intro h hb
      simp only [CJS.mergeInto]
      rw [h, jsOrS_nil, jsOrS_of_ne _ _ hb]
    · intro h
      simp only [CJS.mergeInto]
      rw [jsOrS_of_ne _ _ h, jsOrS_of_ne _ _ h]
    · intro h hb
      simp only [CJS.mergeInto]
      rw [h, jsOrS_nil, jsOrS_of_ne _ _ hb]
    · intro h
      simp only [CJS.mergeInto]
      rw [jsOrS_of_ne _ _ h, jsOrS_of_ne _ _ h]
    · intro h hb
      simp only [CJS.mergeInto]
      rw [h, jsOrS_nil, jsOrS_of_ne _ _ hb]
  · intro now e b
    refine ⟨⟨?_, ?_⟩, ⟨?_, ?_⟩, ⟨?_, ?_⟩, ⟨?_, ?_⟩⟩ <;>
      first
        | (intro s h; simp [P1.spreadMerge, h])
        | (intro h; simp [P1.spreadMerge, h])

/-- C5, witness for `string_field_merge_policy`: a concrete merge in each
engine. -/
theorem string_field_merge_policy_witness :
    ((CJS.mergeInto
        { title := "T".data, asin := "B000000001".data }
        { title := "T".data, asin := "B000000002".data }).asin =
      "B000000001".data) ∧
    ((P1.spreadMerge []
        { country := some "UK".data }
        { country := some "DE".data }).country = some "DE".data) :=
  ⟨(string_field_merge_policy.1
      { title := "T".data, asin := "B000000001".data }
      { title := "T".data, asin := "B000000002".data }).1.1 (by decide),
   ((string_field_merge_policy.2 [] { country := some "UK".data }
      { country := some "DE".data }).2.1).1 "DE".data (by decide)⟩

/-! ### C7: the minimum-signal invariant of materialised records -/

/-- C7.  Every record in the output of `content.js`
`processAndDeduplicateBooks` has a non-empty title and at least one of the
earnings / units-sold / read-count metrics strictly positive (the final
filter, lines 613-616, enforces exactly this), and every record accepted by
`part_000` `isValidBookData` satisfies the same minimum-signal condition. -/
theorem validated_records_minimum_signal :
    (∀ (now : Str) (bs : List CJS.Book) (r : CJS.Book),
      r ∈ CJS.processAndDeduplicateBooks now bs →
        r.title ≠ [] ∧
          (r.totalRoyalties > 0 ∨ r.totalSales > 0 ∨ r.kenpReads > 0)) ∧
    (∀ b : P0.Book, P0.isValidBookData b = true →
        b.title ≠ [] ∧
          (b.totalRoyalties > 0 ∨ b.totalSales > 0 ∨ b.kenpReads > 0)) := by
  constructor
  · intro now bs r hr
    rw [CJS.processAndDeduplicateBooks, List.mem_filter] at hr
    have hk := hr.2
    rw [CJS.keepBook] at hk
    simp only [Bool.and_eq_true, Bool.or_eq_true, decide_eq_true_eq] at hk
    refine ⟨?_, or_assoc.mp hk.2⟩
    intro hnil
    rw [hnil] at hk
    simp at hk
  · intro b hb
    rw [P0.isValidBookData] at hb
    simp only [Bool.and_eq_true, Bool.or_eq_true, decide_eq_true_eq] at hb
    exact ⟨hb.1.1, or_assoc.mp hb.2⟩

/-- C7, witness for `validated_records_minimum_signal` on a concrete run
and a concrete accepted candidate. -/
theorem validated_records_minimum_signal_witness :
    (({ title := "abc".data, totalRoyalties := 1,
        marketplace := "amazon.com".data, country := "US".data,
        source := "unknown".data } : CJS.Book).title ≠ [] ∧
      (({ title := "abc".data, totalRoyalties := 1,
          marketplace := "amazon.com".data, country := "US".data,
          source := "unknown".data } : CJS.Book).totalRoyalties > 0 ∨
        ({ title := "abc".data, totalRoyalties := 1,
           marketplace := "amazon.com".data, country := "US".data,
           source := "unknown".data } : CJS.Book).totalSales > 0 ∨
        ({ title := "abc".data, totalRoyalties := 1,
           marketplace := "amazon.com".data, country := "US".data,
           source := "unknown".data } : CJS.Book).kenpReads > 0)) ∧
    (({ title := "abc".data, totalRoyalties := 1 } : P0.Book).title ≠ [] ∧
      (({ title := "abc".data, totalRoyalties := 1 } : P0.Book).totalRoyalties > 0 ∨
        ({ title := "abc".data, totalRoyalties := 1 } : P0.Book).totalSales > 0 ∨
        ({ title := "abc".data, totalRoyalties := 1 } : P0.Book).kenpReads > 0)) :=
  ⟨validated_records_minimum_signal.1 []
      [{ title := "abc".data, totalRoyalties := 1 }] _ (by decide),
   validated_records_minimum_signal.2
      { title := "abc".data, totalRoyalties := 1 } (by decide)⟩

/-! ### C9: the fallback identifier is a random draw, not title-derived -/

/-- C9, counterexample.  Two enhancement runs on candidates with identical
titles and no identifier produce different fallback ids whenever the
random/time source produces different draws — the id is
`crypto.getRandomValues(...)` hex or `'book_' + Date.now() + '_' +
Math.random()...` (`part_000` lines 626-630), not a function of the
title. -/
theorem fallback_id_not_title_deterministic :
    (P0.enhanceBookData "r1".data
        { title := "abc".data, totalRoyalties := 1 }).id ≠
      (P0.enhanceBookData "r2".data
        { title := "abc".data, totalRoyalties := 1 }).id := by decide

/-- C9, amended.  `enhanceBookData` does assign a fallback id to every
candidate lacking both `id` and `asin`, but the id is exactly the value
drawn from the random/time source (`rng`), independent of the title: for a
fixed draw the id is the same whatever the titles are, and for different
draws it differs even for identical titles. -/
theorem fallback_id_is_random_draw :
    (∀ (rng : Str) (b : P0.Book), b.id = [] → b.asin = [] →
        (P0.enhanceBookData rng b).id = rng) ∧
    (∀ (rng : Str) (b1 b2 : P0.Book),
        b1.id = [] → b1.asin = [] → b2.id = [] → b2.asin = [] →
        (P0.enhanceBookData rng b1).id = (P0.enhanceBookData rng b2).id) := by
  have h1 : ∀ (rng : Str) (b : P0.Book), b.id = [] → b.asin = [] →
      (P0.enhanceBookData rng b).id = rng := by
    intro rng b hid hasin
    rw [P0.enhanceBookData]
    split <;> split <;> simp_all
  exact ⟨h1, fun rng b1 b2 hid1 hasin1 hid2 hasin2 => by
    rw [h1 rng b1 hid1 hasin1, h1 rng b2 hid2 hasin2]⟩

/-- C9, witness for `fallback_id_is_random_draw` at a concrete draw and
candidates. -/
theorem fallback_id_is_random_draw_witness :
    (P0.enhanceBookData "r1".data
        { title := "abc".data, totalRoyalties := 1 }).id = "r1".data ∧
    (P0.enhanceBookData "r1".data
        { title := "Book One".data, totalRoyalties := 1 }).id =
      (P0.enhanceBookData "r1".data
        { title := "A Different Title".data, kenpReads := 7 }).id :=
  ⟨fallback_id_is_random_draw.1 "r1".data
      { title := "abc".data, totalRoyalties := 1 } (by decide) (by decide),
   fallback_id_is_random_draw.2 "r1".data
      { title := "Book One".data, totalRoyalties := 1 }
      { title := "A Different Title".data, kenpReads := 7 }
      (by decide) (by decide) (by decide) (by decide)⟩

/-! ### C6: the reconciler's matching rule and the scenario -/

theorem jsLower_take (s : Str) (n : Nat) :
    jsLower (s.take n) = (jsLower s).take n := by
  rw [jsLower, jsLower, List.map_take]

/-- C6.  (a) For publishing and advertising records with non-empty names,
the reconciler's matching predicate holds exactly when the lower-cased
first 20 characters of either name is a substring of the other's
lower-cased name (the code truncates before lower-casing; the two commute).
(b) The scenario: publishing record `{title: "Empath and Psychic
Abilities", royalty: 10.00}` against ad record `{campaignName: "Empath and
Psychic Abilities - Campaign", spend: 3.00, sales: 1, acos: 0.3}` combines
into `adSpend 3`, `adSales 1`, `acos 0.3`, `netProfit 7` (and `3/10` is the
literal `0.3`). -/
theorem reconciler_matching_and_scenario :
    (∀ (kdp : DS.KdpEntry) (ad : DS.AdEntry),
      kdp.title ≠ [] → ad.campaignName ≠ [] →
        (DS.adMatches kdp ad = true ↔
          (containsSub ((jsLower kdp.title).take 20) (jsLower ad.campaignName) = true ∨
           containsSub ((jsLower ad.campaignName).take 20) (jsLower kdp.title) = true))) ∧
    (((DS.processUserData
        [{ timestamp := "t".data,
           salesData := some [{ title := "Empath and Psychic Abilities".data,
                                royalty := 10 }] }]
        [{ timestamp := "t".data,
           campaigns := some [{ campaignName :=
                                  "Empath and Psychic Abilities - Campaign".data,
                                spend := 3, sales := 1,
                                acos := mkRat 3 10 }] }]).combinedData).map
      (fun r => (r.adSpend, r.adSales, r.acos, r.netProfit)) =
        [(3, 1, mkRat 3 10, 7)]) ∧
    (mkRat 3 10 : ℚ) = (0.3 : ℚ) := by
  refine ⟨?_, by decide, by norm_num⟩
  intro kdp ad ht hc
  rw [DS.adMatches, jsLower_take, jsLower_take]
  simp [ht, hc]

/-- C6, witness for `reconciler_matching_and_scenario` at the scenario's
own names. -/
theorem reconciler_matching_witness :
    DS.adMatches
        { title := "Empath and Psychic Abilities".data, royalty := 10 }
        { campaignName := "Empath and Psychic Abilities - Campaign".data,
          spend := 3, sales := 1, acos := mkRat 3 10 } = true ↔
      (containsSub
          ((jsLower ("Empath and Psychic Abilities".data : Str)).take 20)
          (jsLower ("Empath and Psychic Abilities - Campaign".data : Str)) = true ∨
       containsSub
          ((jsLower ("Empath and Psychic Abilities - Campaign".data : Str)).take 20)
          (jsLower ("Empath and Psychic Abilities".data : Str)) = true) :=
  reconciler_matching_and_scenario.1
    { title := "Empath and Psychic Abilities".data, royalty := 10 }
    { campaignName := "Empath and Psychic Abilities - Campaign".data,
      spend := 3, sales := 1, acos := mkRat 3 10 }
    (by decide) (by decide)

/-! ### C8: exact characterisation of the title classifiers -/

theorem alpha_not_digit (c : Char) (h : c.isAlpha = true) : c.isDigit = false := by
  simp [Char.isAlpha, Char.isUpper, Char.isLower, Char.isDigit, UInt32.le_def,
    BitVec.le_def] at h ⊢
  omega

theorem any_alpha_not_all_digit (text : Str) (h : text.any Char.isAlpha = true) :
    text.all Char.isDigit = false := by
  rw [List.any_eq_true] at h
  obtain ⟨c, hc, hca⟩ := h
  rw [List.all_eq_false]
  exact ⟨c, hc, by simp [alpha_not_digit c hca]⟩

theorem any_alpha_not_all_symbol (text : Str) (h : text.any Char.isAlpha = true) :
    (text.all fun c => !(c.isAlpha || c.isDigit || isJsSpace c)) = false := by
  rw [List.any_eq_true] at h
  obtain ⟨c, hc, hca⟩ := h
  rw [List.all_eq_false]
  exact ⟨c, hc, by simp [hca]⟩

theorem any_alpha_not_all_symbol_and (text : Str)
    (h : text.any Char.isAlpha = true) :
    (text.all fun c => !c.isAlpha && !c.isDigit && !isJsSpace c) = false := by
  rw [List.any_eq_true] at h
  obtain ⟨c, hc, hca⟩ := h
  rw [List.all_eq_false]
  exact ⟨c, hc, by simp [hca]⟩

/-- The title condition as the claim words it for the `content.js`
classifier, with the length cap corrected from 300 to 200: alphabetic
content, length in [3,200], no UI-vocabulary keyword as a (case-insensitive)
substring, not all-uppercase unless shorter than 20, only allowed
characters. -/
def titleSpecCJS (text : Str) : Bool :=
  decide (3 ≤ text.length) && decide (text.length ≤ 200) &&
  !(CJS.uiKeywords.any (fun k => containsSub k (jsLower text))) &&
  text.any Char.isAlpha &&
  (!(decide (text = jsUpper text)) || decide (text.length < 20)) &&
  text.all CJS.isValidTitleChar

/-- The title condition of the `part_000` classifier as the code has it:
length in [3,300], the blocklist matched by case-insensitive EXACT equality
only, alphabetic content, allowed characters — and no all-uppercase
filter. -/
def titleSpecP0 (text : Str) : Bool :=
  decide (3 ≤ text.length) && decide (text.length ≤ 300) &&
  !(P0.uiKeywords.any (fun k => jsLower text = k)) &&
  text.any Char.isAlpha &&
  text.all CJS.isValidTitleChar

/-- The conditions exactly as the claim states them (length up to 300,
substring blocklist, all-uppercase filter) — used to exhibit the
counterexample against the `content.js` classifier. -/
def titleClaimConds (text : Str) : Bool :=
  text.any Char.isAlpha &&
  decide (3 ≤ text.length) && decide (text.length ≤ 300) &&
  !(CJS.uiKeywords.any (fun k => containsSub k (jsLower text))) &&
  (!(decide (text = jsUpper text)) || decide (text.length < 20)) &&
  text.all CJS.isValidTitleChar

/-- C8, counterexample.  A string of 201 letters `a` satisfies every
condition of the claim (alphabetic, length in [3,300], no blocklisted
keyword, not all-uppercase, only allowed characters), yet the `content.js`
classifier rejects it: its length cap is 200, not the 300 the claim
states. -/
theorem long_title_rejected_by_contentjs_classifier :
    titleClaimConds (List.replicate 201 'a') = true ∧
    CJS.isLikelyBookTitle (List.replicate 201 'a') = false := by
  constructor
  · set_option maxRecDepth 40000 in decide
  · set_option maxRecDepth 40000 in decide

/-- C8, amended.  The two title classifiers are characterised exactly:
`content.js` `isLikelyBookTitle` accepts precisely the strings with length
in [3,200] (not 300), no UI keyword as substring of the lower-cased text,
alphabetic content, not all-uppercase unless shorter than 20, and only
allowed characters; `part_000` `isLikelyBookTitle` accepts precisely the
strings with length in [3,300], lower-cased text not exactly equal to a
blocklist word, alphabetic content and only allowed characters (it has no
all-uppercase filter).  The claim's conditions `not only digits` / `not
only symbols` are subsumed by `alphabetic content`. -/
theorem isLikelyBookTitle_characterisation :
    (∀ text : Str, CJS.isLikelyBookTitle text = titleSpecCJS text) ∧
    (∀ text : Str, P0.isLikelyBookTitle text = titleSpecP0 text) := by
  constructor
  · intro text
    by_cases h0 : text = []
    · subst h0
      decide
    · by_cases h3 : text.length < 3
      · have h3n : ¬ 3 ≤ text.length := Nat.not_le.mpr h3
        simp [CJS.isLikelyBookTitle, titleSpecCJS, h0, h3, h3n]
      · by_cases h200 : text.length > 200
        · have h200n : ¬ text.length ≤ 200 := Nat.not_le.mpr h200
          simp [CJS.isLikelyBookTitle, titleSpecCJS, h0, h3, h200, h200n]
        · by_cases hkw :
            CJS.uiKeywords.any (fun k => containsSub k (jsLower text)) = true
          · simp [CJS.isLikelyBookTitle, titleSpecCJS, h0, h3, h200, hkw]
          · by_cases hA : text.any Char.isAlpha = true
            · simp [CJS.isLikelyBookTitle, titleSpecCJS, h0, h3, h200, hkw, hA,
                Nat.le_of_not_lt (by omega : ¬ text.length < 3),
                Nat.le_of_not_lt h200,
                any_alpha_not_all_digit text hA,
                any_alpha_not_all_symbol text hA,
                any_alpha_not_all_symbol_and text hA]
            · simp [CJS.isLikelyBookTitle, titleSpecCJS, h0, h3, h200, hkw, hA]
  · intro text
    by_cases h0 : text = []
    · subst h0
      decide
    · by_cases h3 : text.length < 3
      · have h3n : ¬ 3 ≤ text.length := Nat.not_le.mpr h3
        simp [P0.isLikelyBookTitle, titleSpecP0, h0, h3, h3n]
      · by_cases h300 : text.length > 300
        · have h300n : ¬ text.length ≤ 300 := Nat.not_le.mpr h300
          simp [P0.isLikelyBookTitle, titleSpecP0, h0, h3, h300, h300n]
        · by_cases hkw : P0.uiKeywords.any (fun k => jsLower text = k) = true
          · simp [P0.isLikelyBookTitle, titleSpecP0, h0, h3, h300, hkw]
          · by_cases hA : text.any Char.isAlpha = true
            · simp [P0.isLikelyBookTitle, titleSpecP0, h0, h3, h300, hkw, hA,
                Nat.le_of_not_lt (by omega : ¬ text.length < 3),
                Nat.le_of_not_lt h300,
                any_alpha_not_all_digit text hA]
            · simp [P0.isLikelyBookTitle, titleSpecP0, h0, h3, h300, hkw, hA]

/-! ### C10: the unitsSold default and its effect on totalOrders -/

theorem foldl_qAdd_units_ones (l : List DS.CombinedRecord) :
    ∀ init : ℚ, (∀ i ∈ l, i.unitsSold = 1) →
      l.foldl (fun s i => qAdd s i.unitsSold) init = init + l.length := by
  induction l with
  | nil => intro init _; simp
  | cons x xs ih =>
    intro init h
    rw [List.foldl_cons, ih _ (fun i hi => h i (List.mem_cons_of_mem x hi)),
      qAdd_eq, h x (List.mem_cons_self x xs), List.length_cons]
    push_cast
    ring

/-- C10.  (a) The combined record's `unitsSold` is `kdp.unitsSold || 1`:
it defaults to 1 (not 0) whenever the source record's unit count is
missing-or-zero.  (b) Consequently, over a publishing dataset whose flat
sales rows all lack unit data, `summary.totalOrders` (the sum of the
combined `unitsSold`) equals the number of rows. -/
theorem unitsSold_defaults_to_one :
    (∀ (ads : List DS.AdEntry) (kdp : DS.KdpEntry),
      (DS.combineOne ads kdp).unitsSold =
        (if kdp.unitsSold = 0 then 1 else kdp.unitsSold)) ∧
    (∀ (kdpData : List DS.KdpSync) (adsData : List DS.AdSync),
      (∀ k ∈ DS.flattenKdp kdpData, k.unitsSold = 0) →
      (DS.processUserData kdpData adsData).summary.totalOrders =
        ((DS.flattenKdp kdpData).length : ℚ)) := by
  constructor
  · intro ads kdp
    rfl
  · intro kdpData adsData h
    have hones : ∀ i ∈ (DS.flattenKdp kdpData).map
        (DS.combineOne (DS.flattenAds adsData)), i.unitsSold = (1 : ℚ) := by
      intro i hi
      rw [List.mem_map] at hi
      obtain ⟨k, hk, rfl⟩ := hi
      show jsOr k.unitsSold 1 = 1
      rw [h k hk, jsOr, if_pos rfl]
    show ((DS.flattenKdp kdpData).map
        (DS.combineOne (DS.flattenAds adsData))).foldl
          (fun s i => qAdd s i.unitsSold) 0 = _
    rw [foldl_qAdd_units_ones _ 0 hones, List.length_map, zero_add]

/-- C10, witness for `unitsSold_defaults_to_one`: a concrete two-row
dataset with no unit data reports `totalOrders = 2`, and a concrete
combined record defaults its `unitsSold` to 1. -/
theorem unitsSold_defaults_to_one_witness :
    ((DS.combineOne [] { title := "Book One".data }).unitsSold =
      (if ({ title := "Book One".data } : DS.KdpEntry).unitsSold = 0 then 1
       else ({ title := "Book One".data } : DS.KdpEntry).unitsSold)) ∧
    ((DS.processUserData
        [{ timestamp := "t".data,
           salesData := some [{ title := "Book One".data },
                              { title := "Book Two".data }] }]
        []).summary.totalOrders =
      ((DS.flattenKdp
        [{ timestamp := "t".data,
           salesData := some [{ title := "Book One".data },
                              { title := "Book Two".data }] }]).length : ℚ)) :=
  ⟨unitsSold_defaults_to_one.1 [] { title := "Book One".data },
   unitsSold_defaults_to_one.2
     [{ timestamp := "t".data,
        salesData := some [{ title := "Book One".data },
                           { title := "Book Two".data }] }]
     [] (by decide)⟩
